import Mathlib

/-
Verification of the quantitative analysis engine of the HP hedge manager
(`src/hedge_manager_gui.py`): spread classification and margin/ROI
computation (`calculate_spread`, `calculate_spread_internal`), Black-Scholes
pricing and deltas (`black_scholes_put_price`, `black_scholes_call_price`,
`black_scholes_delta_put`, `black_scholes_delta_call`), the inverse delta
solver (`find_underlying_for_delta`) and its caller
(`calculate_exit_prices`), roll-scenario scoring and ranking
(`analyze_roll_scenarios`), and the delta-neutral balancer
(`find_strike_for_delta`, `analyze_balancer`).

Modelling conventions:
- Python floats are modelled by `ℚ` where the source only uses field
  arithmetic and comparisons, and by `ℝ` where it uses `log`, `exp`,
  `sqrt` or the normal CDF.
- Python exceptions (`ValueError` from `math.log`, `ZeroDivisionError`,
  scipy's `ValueError` from `brentq` on a same-sign bracket) are modelled
  with `Except PyErr`.
- `float('inf')` sentinels for unbounded max profit / max loss are
  modelled as `none : Option ℚ`.
- Python truthiness of a float (`if not x:`) is the test `x = 0`; Python
  truthiness of an optional (`if S_target:`) is `none`-or-zero.
- `scipy.optimize.brentq` is modelled as an abstract `RootFinder`
  carrying its documented contract: a bracket whose endpoint values have
  the same (nonzero) sign raises `ValueError`.
- Calendar-date arithmetic (`datetime.strptime`, `.days`) is not
  re-implemented: functions take the resulting day count / DTE as an
  integer or rational parameter exactly where the source computes one.
- `SCIPY_AVAILABLE` is taken to be `True` (the source's quantitative
  paths all require scipy and show an error dialog without it), so the
  scipy-only branches are the modelled ones.
-/

inductive OptionType
  | call
  | put
deriving DecidableEq, Repr

inductive Broker
  | ibkr
  | saxo
deriving DecidableEq, Repr

/-- The spread taxonomy produced by `calculate_spread` (lines 933-967): the
`spread_type` strings, with the option type kept where the string carries
it. -/
inductive SpreadKind
  | naked (t : OptionType)
  | single (t : OptionType)
  | verticalCredit (t : OptionType)
  | verticalDebit (t : OptionType)
  | calendarCredit (t : OptionType)
  | calendarDebit (t : OptionType)
  | diagonalCredit
  | pmcc
  | pmcp
deriving DecidableEq, Repr

/-- Whether a `SpreadKind` is one of the credit classifications. -/
def SpreadKind.credit_kind : SpreadKind → Bool
  | .naked _ => true
  | .verticalCredit _ => true
  | .calendarCredit _ => true
  | .diagonalCredit => true
  | _ => false

/-- The coarser taxonomy produced by `calculate_spread_internal`
(lines 1702-1716): the calendar case is not split into credit/debit
there. -/
inductive SpreadKindInternal
  | single (t : OptionType)
  | verticalCredit (t : OptionType)
  | verticalDebit (t : OptionType)
  | calendar (t : OptionType)
  | diagonalCredit
  | pmcc
  | pmcp
deriving DecidableEq, Repr

def SpreadKindInternal.credit_kind : SpreadKindInternal → Bool
  | .verticalCredit _ => true
  | .diagonalCredit => true
  | _ => false

/-- The quantities computed by `calculate_spread` (lines 892-1097).
`max_profit`/`max_loss` are `none` when the source stores `float('inf')`. -/
structure SpreadResult where
  spread_type : SpreadKind
  is_credit : Bool
  net_credit : ℚ
  net_debit : ℚ
  spread_width : ℚ
  max_profit : Option ℚ
  max_loss : Option ℚ
  break_even : ℚ
  margin : ℚ
  investment : ℚ
  additional_margin : ℚ
  total_capital : ℚ
  total_roi : ℚ
  weekly_roi : ℚ
  annual_roi : ℚ
  roll_trigger_price : ℚ
deriving DecidableEq, Repr

/-- The credit arm of `calculate_spread` (lines 970-1015). `short_dte` is
the day count the source derives from `short_expiry` and today's date. -/
def credit_branch (kind : SpreadKind) (net_amount spread_width : ℚ)
    (same_expiry : Bool) (short_strike underlying_price : ℚ)
    (option_type : OptionType) (broker : Broker) (short_dte : ℚ) :
    SpreadResult :=
  let net_credit := net_amount
  let max_profit : Option ℚ := some (net_credit * 100)
  let max_loss : Option ℚ :=
    if 0 < spread_width then some ((spread_width - net_credit) * 100) else none
  let break_even : ℚ :=
    match option_type with
    | .put => short_strike - net_credit
    | .call => short_strike + net_credit
  let broker_pct : ℚ := if broker = .ibkr then 0.10 else 0.15
  let margin : ℚ :=
    if 0 < spread_width ∧ same_expiry = true then spread_width * 100
    else if 0 < spread_width then spread_width * 100 * 1.2
    else underlying_price * broker_pct * 100
  let rois : ℚ × ℚ × ℚ :=
    if 0 < margin then
      let total_roi := net_credit * 100 / margin * 100
      let weekly_roi := total_roi / short_dte * 7
      (total_roi, weekly_roi, weekly_roi * 52)
    else (0, 0, 0)
  let roll_trigger_loss := net_credit * 0.30
  let roll_trigger_price : ℚ :=
    match option_type with
    | .put => short_strike + roll_trigger_loss
    | .call => short_strike - roll_trigger_loss
  { spread_type := kind
    is_credit := true
    net_credit := net_credit
    net_debit := 0
    spread_width := spread_width
    max_profit := max_profit
    max_loss := max_loss
    break_even := break_even
    margin := margin
    investment := 0
    additional_margin := 0
    total_capital := 0
    total_roi := rois.1
    weekly_roi := rois.2.1
    annual_roi := rois.2.2
    roll_trigger_price := roll_trigger_price }

/-- The debit arm of `calculate_spread` (lines 1017-1097). -/
def debit_branch (kind : SpreadKind) (net_amount spread_width : ℚ)
    (same_expiry : Bool) (short_strike short_premium long_premium
    underlying_price : ℚ) (option_type : OptionType) (broker : Broker)
    (short_dte : ℚ) : SpreadResult :=
  let net_debit := |net_amount|
  let max_loss : Option ℚ := some (net_debit * 100)
  let mp_am : Option ℚ × ℚ :=
    if same_expiry = true ∧ 0 < spread_width then
      (some ((spread_width - net_debit) * 100), 0)
    else if spread_width = 0 then
      (none, if broker = .ibkr then long_premium * 100 * 0.15 else 0)
    else
      (none,
       if broker = .ibkr then
         max (spread_width * 100) (underlying_price * 0.05 * 100)
       else spread_width * 100 * 1.5)
  let max_profit := mp_am.1
  let additional_margin := mp_am.2
  let break_even : ℚ := short_strike + net_debit
  let investment := net_debit * 100
  let total_capital := investment + additional_margin
  let margin := total_capital
  let rois : ℚ × ℚ × ℚ :=
    if 0 < total_capital then
      let total_roi :=
        match max_profit with
        | some mp => mp / total_capital * 100
        | none => short_premium * 100 / total_capital * 100
      let weekly_roi := total_roi / short_dte * 7
      (total_roi, weekly_roi, weekly_roi * 52)
    else (0, 0, 0)
  let roll_trigger_price : ℚ := short_strike
  { spread_type := kind
    is_credit := false
    net_credit := 0
    net_debit := net_debit
    spread_width := spread_width
    max_profit := max_profit
    max_loss := max_loss
    break_even := break_even
    margin := margin
    investment := investment
    additional_margin := additional_margin
    total_capital := total_capital
    total_roi := rois.1
    weekly_roi := rois.2.1
    annual_roi := rois.2.2
    roll_trigger_price := roll_trigger_price }

/-- `calculate_spread` (lines 892-1097): input validation (line 910,
Python float truthiness), spread-width and same-expiry derivation
(lines 915-916), classification (lines 933-967) and the credit/debit
computation arms. Returns `none` when the source shows the "fill in the
required fields" warning and computes nothing. -/
def calculate_spread (short_strike short_premium : ℚ) (short_expiry : String)
    (long_strike long_premium : ℚ) (long_expiry : String)
    (underlying_price : ℚ) (option_type : OptionType) (broker : Broker)
    (short_dte : ℚ) : Option SpreadResult :=
  if short_strike = 0 ∨ short_premium = 0 ∨ underlying_price = 0 then none
  else
    let spread_width : ℚ :=
      if 0 < long_strike then |short_strike - long_strike| else 0
    let same_expiry : Bool :=
      (short_expiry == long_expiry) || (long_expiry == "")
    let net_amount := short_premium - long_premium
    let is_credit : Bool := decide (0 < net_amount)
    if long_strike = 0 ∨ long_premium = 0 then
      -- naked branch: is_credit forced to True, net_amount to short_premium
      some (credit_branch (.naked option_type) short_premium spread_width
        same_expiry short_strike underlying_price option_type broker short_dte)
    else
      let kind : SpreadKind :=
        if same_expiry then
          if spread_width = 0 then .single option_type
          else if is_credit then .verticalCredit option_type
          else .verticalDebit option_type
        else
          if spread_width = 0 then
            if is_credit then .calendarCredit option_type
            else .calendarDebit option_type
          else if is_credit then .diagonalCredit
          else
            match option_type with
            | .call => .pmcc
            | .put => .pmcp
      if is_credit then
        some (credit_branch kind net_amount spread_width same_expiry
          short_strike underlying_price option_type broker short_dte)
      else
        some (debit_branch kind net_amount spread_width same_expiry
          short_strike short_premium long_premium underlying_price
          option_type broker short_dte)

/-- The classification fragment of `calculate_spread_internal`
(lines 1675-1716): spread width, same-expiry flag, net amount, credit
flag and spread type. -/
def calculate_spread_internal_classify (short_strike short_premium
    long_strike long_premium : ℚ) (short_expiry long_expiry : String)
    (option_type : OptionType) : SpreadKindInternal × Bool :=
  let spread_width : ℚ :=
    if 0 < long_strike then |short_strike - long_strike| else 0
  let same_expiry : Bool :=
    (short_expiry == long_expiry) || (long_expiry == "")
  let net_amount := short_premium - long_premium
  let is_credit : Bool := decide (0 < net_amount)
  let kind : SpreadKindInternal :=
    if same_expiry then
      if spread_width = 0 then .single option_type
      else if is_credit then .verticalCredit option_type
      else .verticalDebit option_type
    else
      if spread_width = 0 then .calendar option_type
      else if is_credit then .diagonalCredit
      else
        match option_type with
        | .call => .pmcc
        | .put => .pmcp
  (kind, is_credit)

/-- Python exception kinds raised inside the numeric routines. -/
inductive PyErr
  | valueError
  | zeroDivisionError
deriving DecidableEq, Repr

open MeasureTheory ProbabilityTheory

/-- The standard normal CDF (scipy's `norm.cdf`): the integral of the
standard normal density over `(-oo, x]`. -/
noncomputable def normCdf (x : ℝ) : ℝ :=
  ∫ t in Set.Iic x, gaussianPDFReal 0 1 t

/-- The `d1` value of the closed form (lines 3557, 3565, 3573, 3580). -/
noncomputable def d1_val (S K T r sigma : ℝ) : ℝ :=
  (Real.log (S / K) + (r + 0.5 * sigma ^ 2) * T) / (sigma * Real.sqrt T)

/-- Evaluation of the `d1` line exactly as Python evaluates it: `S / K`
raises `ZeroDivisionError` when `K = 0`, `math.log` raises `ValueError` on
a non-positive argument, and the division by `sigma * sqrt(T)` raises
`ZeroDivisionError` when that product is zero.  No other validation is
performed by the source. -/
noncomputable def d1_term (S K T r sigma : ℝ) : Except PyErr ℝ :=
  if K = 0 then .error .zeroDivisionError
  else if S / K ≤ 0 then .error .valueError
  else if sigma * Real.sqrt T = 0 then .error .zeroDivisionError
  else .ok (d1_val S K T r sigma)

/-- `black_scholes_put_price` (lines 3553-3559). -/
noncomputable def black_scholes_put_price (S K T r sigma : ℝ) :
    Except PyErr ℝ :=
  if T ≤ 0 then .ok (max (K - S) 0)
  else (d1_term S K T r sigma).map fun d1 =>
    let d2 := d1 - sigma * Real.sqrt T
    K * Real.exp (-r * T) * normCdf (-d2) - S * normCdf (-d1)

/-- `black_scholes_call_price` (lines 3561-3567). -/
noncomputable def black_scholes_call_price (S K T r sigma : ℝ) :
    Except PyErr ℝ :=
  if T ≤ 0 then .ok (max (S - K) 0)
  else (d1_term S K T r sigma).map fun d1 =>
    let d2 := d1 - sigma * Real.sqrt T
    S * normCdf d1 - K * Real.exp (-r * T) * normCdf d2

/-- `black_scholes_delta_put` (lines 3569-3574). -/
noncomputable def black_scholes_delta_put (S K T r sigma : ℝ) :
    Except PyErr ℝ :=
  if T ≤ 0 then .ok (if S < K then -1 else 0)
  else (d1_term S K T r sigma).map fun d1 => normCdf d1 - 1

/-- `black_scholes_delta_call` (lines 3576-3581). -/
noncomputable def black_scholes_delta_call (S K T r sigma : ℝ) :
    Except PyErr ℝ :=
  if T ≤ 0 then .ok (if S > K then 1 else 0)
  else (d1_term S K T r sigma).map normCdf

/-- The value `black_scholes_delta_put` yields when no exception is
raised. -/
noncomputable def put_delta_val (S K T r sigma : ℝ) : ℝ :=
  if T ≤ 0 then (if S < K then -1 else 0)
  else normCdf (d1_val S K T r sigma) - 1

/-- The value `black_scholes_delta_call` yields when no exception is
raised. -/
noncomputable def call_delta_val (S K T r sigma : ℝ) : ℝ :=
  if T ≤ 0 then (if S > K then 1 else 0)
  else normCdf (d1_val S K T r sigma)

/-- The value `black_scholes_put_price` yields when no exception is
raised. -/
noncomputable def put_price_val (S K T r sigma : ℝ) : ℝ :=
  if T ≤ 0 then max (K - S) 0
  else K * Real.exp (-r * T)
      * normCdf (-(d1_val S K T r sigma - sigma * Real.sqrt T))
    - S * normCdf (-(d1_val S K T r sigma))

/-- The value `black_scholes_call_price` yields when no exception is
raised. -/
noncomputable def call_price_val (S K T r sigma : ℝ) : ℝ :=
  if T ≤ 0 then max (S - K) 0
  else S * normCdf (d1_val S K T r sigma)
    - K * Real.exp (-r * T)
      * normCdf (d1_val S K T r sigma - sigma * Real.sqrt T)

/-- Abstract interface for `scipy.optimize.brentq` carrying its documented
contract: when both bracket endpoints evaluate (without exception) to
values of the same nonzero sign, `brentq` raises
`ValueError("f(a) and f(b) must have different signs")`. -/
structure RootFinder where
  run : (ℝ → Except PyErr ℝ) → ℝ → ℝ → Except PyErr ℝ
  same_sign_error : ∀ f a b fa fb, f a = .ok fa → f b = .ok fb →
    0 < fa * fb → run f a b = .error .valueError

/-- A degenerate root finder that always reports failure; it satisfies the
`brentq` contract and serves to evaluate the solver theorems on concrete
inputs. -/
def no_root_finder : RootFinder where
  run := fun _ _ _ => .error .valueError
  same_sign_error := fun _ _ _ _ _ _ _ _ => rfl

/-- `try: return brentq(...) except: return None` produces a value only
from a successful run. -/
def except_to_option : Except PyErr ℝ → Option ℝ
  | .ok x => some x
  | .error _ => none

/-- The closure `delta_diff` passed to `brentq`
(lines 3587-3588 and 3591-3592). -/
noncomputable def delta_diff (target K T r sigma : ℝ) (is_call : Bool) :
    ℝ → Except PyErr ℝ :=
  fun S =>
    (if is_call then black_scholes_delta_call S K T r sigma
     else black_scholes_delta_put S K T r sigma).map (· - target)

/-- No sign change over a bracket: both endpoints evaluate successfully
and their values have the same (nonzero) sign. -/
def no_sign_change (f : ℝ → Except PyErr ℝ) (a b : ℝ) : Prop :=
  ∃ fa fb, f a = .ok fa ∧ f b = .ok fb ∧ 0 < fa * fb

/-- `find_underlying_for_delta` (lines 3583-3595): `brentq` over
`[0.9K, 1.3K]` for calls and `[0.7K, 1.1K]` for puts, any exception
mapped to `None`. -/
noncomputable def find_underlying_for_delta (bq : RootFinder)
    (target K T r sigma : ℝ) (is_call : Bool) : Option ℝ :=
  if is_call then
    except_to_option
      (bq.run (delta_diff target K T r sigma true) (K * 0.9) (K * 1.3))
  else
    except_to_option
      (bq.run (delta_diff target K T r sigma false) (K * 0.7) (K * 1.1))

/-- One row of the exit-price table built by `calculate_exit_prices`
(lines 3513-3523): the row is inserted only when `S_target` is truthy
(not `None` and not `0.0`); a missing root inserts nothing and in
particular never substitutes the strike. -/
noncomputable def exit_table_row (bq : RootFinder)
    (target K T r sigma : ℝ) (is_call : Bool) : Option ℝ :=
  match find_underlying_for_delta bq target K T r sigma is_call with
  | some S => if S = 0 then none else some S
  | none => none

/-- The fields of a roll scenario that enter the scoring loop of
`analyze_roll_scenarios` (lines 2669-2676): probability of profit,
total cost after the roll, and the break-even column (`none` models the
`'-'` placeholder of the Close scenario). -/
structure RollScenario where
  prob_profit : ℚ
  total_cost : ℚ
  break_even : Option ℚ
deriving DecidableEq, Repr

/-- The score assigned to one scenario (lines 2670-2676): the
risk-adjusted formula only when the probability is positive and a numeric
break-even exists, otherwise the bare probability. -/
def roll_score (s : RollScenario) : ℚ :=
  if 0 < s.prob_profit ∧ s.break_even ≠ none then
    s.prob_profit * 100
      / max (if s.total_cost ≠ 0 then |s.total_cost| else 1) 1
  else s.prob_profit

/-- A scenario together with its computed score. -/
structure ScoredScenario where
  scenario : RollScenario
  score : ℚ
deriving DecidableEq, Repr

/-- Descending-score order used by
`scenarios.sort(key=lambda x: x['score'], reverse=True)` (line 2679). -/
def score_desc (a b : ScoredScenario) : Prop := b.score ≤ a.score

instance : DecidableRel score_desc :=
  fun a b => inferInstanceAs (Decidable (b.score ≤ a.score))

instance : IsTotal ScoredScenario score_desc :=
  ⟨fun a b => le_total b.score a.score⟩

instance : IsTrans ScoredScenario score_desc :=
  ⟨fun _ _ _ h h2 => le_trans h2 h⟩

/-- Score every scenario, then stable-sort descending by score
(lines 2669-2679); Python's stable `sort(reverse=True)` and insertion
sort agree on the result. -/
def rank_roll_scenarios (l : List RollScenario) : List ScoredScenario :=
  (l.map fun s => ⟨s, roll_score s⟩).insertionSort score_desc

/-- The proposed recommendation is the first element of the sorted list
(`best = scenarios[0]` in `_show_roll_recommendation`, line 2767). -/
def roll_recommendation (l : List RollScenario) : Option ScoredScenario :=
  (rank_roll_scenarios l).head?

/-- The Close ("PREDAŤ") scenario of the roll generator
(lines 2554-2565): probability 100 when the realized P/L is ≥ 0 and 0
otherwise, zero total cost, `'-'` break-even. -/
def close_scenario (total_invested received_credit current_premium : ℚ) :
    RollScenario :=
  { prob_profit :=
      if 0 ≤ received_credit + current_premium * 100 - total_invested
      then 100 else 0
    total_cost := 0
    break_even := none }

/-- `opp_type` selection of `analyze_balancer` (lines 2381-2386). -/
def opposite : OptionType → OptionType
  | .call => .put
  | .put => .call

/-- `T = max(1, (exp_date - date.today()).days) / 365.0`
(lines 2316-2317 / 2374-2376); the day difference is the parameter. -/
noncomputable def dte_T (dte_days : ℤ) : ℝ := ((max 1 dte_days : ℤ) : ℝ) / 365

/-- The closure `delta_for_K` of `find_strike_for_delta`
(lines 2321-2325). -/
noncomputable def delta_for_K (ty : OptionType)
    (underlying T r iv K : ℝ) : Except PyErr ℝ :=
  match ty with
  | .call => black_scholes_delta_call underlying K T r iv
  | .put => black_scholes_delta_put underlying K T r iv

/-- The value `delta_for_K` yields when no exception is raised. -/
noncomputable def delta_val_for_K (ty : OptionType)
    (underlying T r iv K : ℝ) : ℝ :=
  match ty with
  | .call => call_delta_val underlying K T r iv
  | .put => put_delta_val underlying K T r iv

/-- `low = max(0.01, underlying * 0.2)` (line 2327). -/
noncomputable def grid_lo (underlying : ℝ) : ℝ := max 0.01 (underlying * 0.2)

/-- `high = underlying * 3.0` (line 2328). -/
noncomputable def grid_hi (underlying : ℝ) : ℝ := underlying * 3.0

/-- The strike grid `low + (high - low) * i / steps` used with
`steps = 60` for bracketing (line 2333) and 200 subdivisions for the
fallback scan (line 2348). -/
noncomputable def scan_ks (underlying : ℝ) (steps i : ℕ) : ℝ :=
  grid_lo underlying
    + (grid_hi underlying - grid_lo underlying) * i / steps

/-- `fvals[i] = delta_for_K(ks[i]) - target_delta` (line 2334), as a pure
value under the no-exception hypotheses. -/
noncomputable def scan_fv (ty : OptionType) (target T r iv underlying : ℝ)
    (steps i : ℕ) : ℝ :=
  delta_val_for_K ty underlying T r iv (scan_ks underlying steps i) - target

/-- Python's `round(x, 2)` (banker's rounding to cents). -/
noncomputable def py_round2 (x : ℝ) : ℝ :=
  let n : ℤ := ⌊x * 100⌋
  let frac : ℝ := x * 100 - n
  let m : ℤ :=
    if frac < 1 / 2 then n
    else if 1 / 2 < frac then n + 1
    else if Even n then n else n + 1
  (m : ℝ) / 100

/-- Sequencing of a Python list comprehension over fallible calls: the
first exception propagates, otherwise the list of values results. -/
def except_all {α : Type} : List (Except PyErr α) → Except PyErr (List α)
  | [] => .ok []
  | (.error e) :: _ => .error e
  | (.ok x) :: rest => (except_all rest).map (x :: ·)

/-- The bracketing loop of `find_strike_for_delta` (lines 2335-2343):
return the (rounded) grid point on an exact zero, run `brentq` on the
first sign-change interval (an exception there breaks to the fallback
scan), otherwise continue; falling off the end also reaches the fallback.
`none` means "proceed to the fallback grid scan". -/
noncomputable def bracket_scan (bq : RootFinder)
    (f : ℝ → Except PyErr ℝ) (ks fv : ℕ → ℝ) (i : ℕ) : Option ℝ :=
  if i < 60 then
    if fv i = 0 then some (py_round2 (ks i))
    else if fv i * fv (i + 1) < 0 then
      match bq.run f (ks i) (ks (i + 1)) with
      | .ok root => some (py_round2 root)
      | .error _ => none
    else bracket_scan bq f ks fv (i + 1)
  else none
termination_by 60 - i

/-- One step of the fallback scan (lines 2346-2352): `best_diff` starts at
`float('inf')`, so the first comparison always succeeds; `none` models the
initial `best_k = None`. -/
noncomputable def best_step (key val : ℕ → ℝ) (acc : Option (ℝ × ℝ))
    (i : ℕ) : Option (ℝ × ℝ) :=
  match acc with
  | none => some (key i, val i)
  | some (bk, bd) => if val i < bd then some (key i, val i) else some (bk, bd)

/-- The whole fallback scan over `n` grid points. -/
noncomputable def best_scan (key val : ℕ → ℝ) (n : ℕ) : Option (ℝ × ℝ) :=
  (List.range n).foldl (best_step key val) none

/-- `find_strike_for_delta` (lines 2313-2353): 60-step bracket search with
`brentq`, then a 201-point grid scan minimizing the absolute delta error;
`round(best_k, 2) if best_k else None` is the final Python line. -/
noncomputable def find_strike_for_delta (bq : RootFinder)
    (option_type : OptionType) (target_delta : ℝ) (dte_days : ℤ)
    (iv r underlying : ℝ) : Except PyErr (Option ℝ) :=
  let T := dte_T dte_days
  let dfK : ℝ → Except PyErr ℝ := delta_for_K option_type underlying T r iv
  let ks : ℕ → ℝ := scan_ks underlying 60
  match except_all ((List.range 61).map fun i => dfK (ks i)) with
  | .error e => .error e
  | .ok vals =>
    let fv : ℕ → ℝ := fun i => vals.getD i 0 - target_delta
    match bracket_scan bq (fun K => (dfK K).map (· - target_delta)) ks fv 0 with
    | some root => .ok (some root)
    | none =>
      let ks2 : ℕ → ℝ := scan_ks underlying 200
      match except_all ((List.range 201).map fun i => dfK (ks2 i)) with
      | .error e => .error e
      | .ok vals2 =>
        match best_scan ks2 (fun i => |vals2.getD i 0 - target_delta|) 201 with
        | none => .ok none
        | some (best_k, _) =>
          .ok (if best_k = 0 then none else some (py_round2 best_k))

/-- The proposal `analyze_balancer` reports on success (lines 2397-2423). -/
structure BalancerProposal where
  opp_strike : ℝ
  est_premium : ℝ
  opp_delta : ℝ
  long_delta : ℝ
  delta_sum : ℝ

/-- Outcomes of `analyze_balancer`: early-return input warning
(line 2368), the "no suitable strike" message (lines 2391-2395), or a
proposal. -/
inductive BalancerOutcome
  | invalidInput
  | noStrikeFound
  | proposal (p : BalancerProposal)

/-- The computational core of `analyze_balancer` (lines 2355-2423):
long delta via the pricer, `target_delta = -long_delta`, opposite-type
strike search, price/delta of the proposed leg.  `if not opp_strike:`
treats both `None` and a strike of `0.0` as failure. -/
noncomputable def analyze_balancer_core (bq : RootFinder)
    (long_type : OptionType) (long_strike : ℝ) (dte_days : ℤ)
    (underlying iv r : ℝ) : Except PyErr BalancerOutcome :=
  if underlying ≤ 0 then .ok .invalidInput
  else
    let T := dte_T dte_days
    match delta_for_K long_type underlying T r iv long_strike with
    | .error e => .error e
    | .ok long_delta =>
      let opp_type := opposite long_type
      match find_strike_for_delta bq opp_type (-long_delta) dte_days iv r
          underlying with
      | .error e => .error e
      | .ok none => .ok .noStrikeFound
      | .ok (some opp_strike) =>
        if opp_strike = 0 then .ok .noStrikeFound
        else
          match (match opp_type with
                 | .call => black_scholes_call_price underlying opp_strike T r iv
                 | .put => black_scholes_put_price underlying opp_strike T r iv) with
          | .error e => .error e
          | .ok opp_price =>
            match delta_for_K opp_type underlying T r iv opp_strike with
            | .error e => .error e
            | .ok opp_delta =>
              .ok (.proposal ⟨opp_strike, opp_price, opp_delta, long_delta,
                long_delta + opp_delta⟩)


/-- Claim C1 counterexample: in the spec's margin/ROI scenario (PUT
vertical credit, short 450 @ $2.00, long 440 @ $0.80, broker A/IBKR,
same expiry) the code computes `maxLoss = (width − netCredit)×100 =
(10 − 1.20)×100 = $880`, not the claimed $380. -/
theorem C1_counterexample :
    (calculate_spread 450 2 "E" 440 0.8 "E" 450 OptionType.put Broker.ibkr
        7).map SpreadResult.max_loss = some (some 880)
    ∧ some (some (880 : ℚ)) ≠ some (some (380 : ℚ)) := by
  constructor
  · norm_num [calculate_spread, credit_branch]
  · norm_num

/-- Claim C1 amended: the scenario produces netCredit = 1.20, maxProfit =
$120, maxLoss = $880, breakEven = 448.80 and margin = $1000. -/
theorem C1_margin_scenario :
    (calculate_spread 450 2 "E" 440 0.8 "E" 450 OptionType.put Broker.ibkr
        7).map
        (fun r => (r.net_credit, r.max_profit, r.max_loss, r.break_even,
          r.margin))
      = some (1.20, some 120, some 880, 448.80, 1000) := by
  norm_num [calculate_spread, credit_branch]

/-- Claim C2 counterexample: for the PUT credit spread short 450 with net
credit 1.20 the code's roll trigger is `shortStrike + 0.30×netCredit =
450.36`, not the claimed `shortStrike − 0.30×netCredit = 449.64`. -/
theorem C2_counterexample :
    (calculate_spread 450 2 "E" 440 0.8 "E" 450 OptionType.put Broker.ibkr
        7).map SpreadResult.roll_trigger_price = some 450.36
    ∧ ((450.36 : ℚ) ≠ 450 - 0.30 * 1.20) := by
  constructor
  · norm_num [calculate_spread, credit_branch]
  · norm_num

/-- Claim C2 amended: whenever `calculate_spread` takes its credit arm,
the roll trigger is `shortStrike + netCredit×0.30` for PUTs and
`shortStrike − netCredit×0.30` for CALLs (the signs are the mirror image
of the claim's), computed directly from strike and credit. -/
theorem C2_roll_trigger (ss sp : ℚ) (se : String) (ls lp : ℚ) (le : String)
    (u : ℚ) (ty : OptionType) (bk : Broker) (dte : ℚ) (r : SpreadResult)
    (h : calculate_spread ss sp se ls lp le u ty bk dte = some r)
    (hc : r.is_credit = true) :
    r.roll_trigger_price =
      (match ty with
       | .put => ss + r.net_credit * 0.30
       | .call => ss - r.net_credit * 0.30) := by
  unfold calculate_spread at h
  dsimp only at h
  split_ifs at h
  all_goals rw [Option.some.injEq] at h
  all_goals subst h
  all_goals
    first
    | simp [debit_branch] at hc
    | (cases ty <;> simp [credit_branch])

/-- Claim C2 witness: the amended trigger formula evaluated on the C1
scenario input. -/
theorem C2_roll_trigger_witness :
    (credit_branch (SpreadKind.verticalCredit OptionType.put) (2 - 0.8) 10
        true 450 450 OptionType.put Broker.ibkr 7).roll_trigger_price
      = 450 + (credit_branch (SpreadKind.verticalCredit OptionType.put)
          (2 - 0.8) 10 true 450 450 OptionType.put Broker.ibkr 7).net_credit
          * 0.30 :=
  C2_roll_trigger 450 2 "E" 440 0.8 "E" 450 OptionType.put Broker.ibkr 7 _
    (by norm_num [calculate_spread]) rfl

/-- Claim C8: a spread whose legs share strike and expiry with a positive
net credit is classified `Single`, its margin follows the naked branch
`underlying × brokerPct × 100`, `maxLoss` is the unbounded sentinel (the
width-based formula is not used), and the ROI is computed by dividing by
the margin only when it is positive, else set to 0. -/
theorem C8_zero_width_credit (ss sp : ℚ) (se : String) (lp : ℚ) (u : ℚ)
    (ty : OptionType) (bk : Broker) (dte : ℚ)
    (hss : 0 < ss) (hlp : 0 < lp) (hnet : lp < sp) (hu : u ≠ 0) :
    ∃ r, calculate_spread ss sp se ss lp se u ty bk dte = some r
      ∧ r.spread_type = SpreadKind.single ty
      ∧ r.is_credit = true
      ∧ r.net_credit = sp - lp
      ∧ r.max_loss = none
      ∧ r.margin = u * (if bk = Broker.ibkr then 0.10 else 0.15) * 100
      ∧ (0 < r.margin → r.total_roi = r.net_credit * 100 / r.margin * 100)
      ∧ (¬ 0 < r.margin → r.total_roi = 0) := by
  have hss' : ¬ ss = 0 := ne_of_gt hss
  have hsp' : ¬ sp = 0 := ne_of_gt (lt_trans hlp hnet)
  have hlp' : ¬ lp = 0 := ne_of_gt hlp
  have hw : |ss - ss| = 0 := by simp
  have hnc : (0 : ℚ) < sp - lp := sub_pos.mpr hnet
  refine ⟨credit_branch (SpreadKind.single ty) (sp - lp) 0 true ss u ty bk
    dte, ?_, rfl, rfl, rfl, ?_, ?_, ?_, ?_⟩
  · simp [calculate_spread, hss', hsp', hlp', hu, hss, hw, hnc]
  · simp [credit_branch]
  · simp [credit_branch]
  · intro hm
    simp only [credit_branch] at hm ⊢
    rw [if_pos hm]
  · intro hm
    simp only [credit_branch] at hm ⊢
    rw [if_neg hm]

/-- Claim C8 witness: concrete zero-width credit input (short 100 @ 2,
long 100 @ 1, same expiry, underlying 50). -/
theorem C8_zero_width_credit_witness :
    ∃ r, calculate_spread 100 2 "E" 100 1 "E" 50 OptionType.put Broker.ibkr
        7 = some r
      ∧ r.spread_type = SpreadKind.single OptionType.put
      ∧ r.is_credit = true
      ∧ r.net_credit = 2 - 1
      ∧ r.max_loss = none
      ∧ r.margin = 50 * (if Broker.ibkr = Broker.ibkr then 0.10 else 0.15)
          * 100
      ∧ (0 < r.margin → r.total_roi = r.net_credit * 100 / r.margin * 100)
      ∧ (¬ 0 < r.margin → r.total_roi = 0) :=
  C8_zero_width_credit 100 2 "E" 1 50 OptionType.put Broker.ibkr 7
    (by norm_num) (by norm_num) (by norm_num) (by norm_num)

/-- Claim C10: with a long leg present (positive strike and premium) and
short premium exactly equal to long premium, both `calculate_spread` and
the classification fragment of `calculate_spread_internal` set the credit
flag to false, the computed net credit and net debit are 0, the resulting
kind is never a credit kind, and for positive spread width it is one of
the debit variants (vertical debit or PMCC/PMCP). -/
theorem C10_zero_net_spread (ss sp : ℚ) (se : String) (ls lp : ℚ)
    (le : String) (u : ℚ) (ty : OptionType) (bk : Broker) (dte : ℚ)
    (hss : ss ≠ 0) (hu : u ≠ 0) (hls : 0 < ls) (hlp : 0 < lp)
    (heq : sp = lp) :
    (∃ r, calculate_spread ss sp se ls lp le u ty bk dte = some r
      ∧ r.is_credit = false
      ∧ r.net_credit = 0
      ∧ r.net_debit = 0
      ∧ r.spread_type.credit_kind = false
      ∧ (0 < r.spread_width →
          r.spread_type = SpreadKind.verticalDebit ty ∨
          r.spread_type = SpreadKind.pmcc ∨
          r.spread_type = SpreadKind.pmcp))
    ∧ (calculate_spread_internal_classify ss sp ls lp se le ty).2 = false
    ∧ ((calculate_spread_internal_classify ss sp ls lp se le
        ty).1).credit_kind = false := by
  have hsp' : ¬ sp = 0 := by rw [heq]; exact ne_of_gt hlp
  have hls' : ¬ ls = 0 := ne_of_gt hls
  have hlp' : ¬ lp = 0 := ne_of_gt hlp
  have hnet : sp - lp = 0 := by rw [heq]; ring
  have hic : ¬ (0 : ℚ) < sp - lp := by rw [hnet]; norm_num
  have hval : ¬ (ss = 0 ∨ sp = 0 ∨ u = 0) := by
    push_neg
    exact ⟨hss, hsp', hu⟩
  have hnaked : ¬ (ls = 0 ∨ lp = 0) := by
    push_neg
    exact ⟨hls', hlp'⟩
  have hdec : decide ((0 : ℚ) < sp - lp) = false := by
    rw [hnet]
    norm_num
  constructor
  · simp only [calculate_spread]
    rw [if_neg hval, if_pos hls, if_neg hnaked, hdec]
    simp only [Bool.false_eq_true, if_false]
    split_ifs with h1 h2 h3 <;>
      (try cases ty) <;>
      exact ⟨_, rfl, rfl, rfl, by simp [debit_branch, hnet],
        by simp [debit_branch, SpreadKind.credit_kind],
        by intro hwpos; simp_all [debit_branch]⟩
  · constructor
    · simp only [calculate_spread_internal_classify]
      exact hdec
    · simp only [calculate_spread_internal_classify]
      rw [if_pos hls, hdec]
      simp only [Bool.false_eq_true, if_false]
      split_ifs <;>
        cases ty <;>
          simp [SpreadKindInternal.credit_kind]

/-- Claim C10 witness: equal premiums (1 = 1) on legs 100/90 with the same
expiry; the vertical case comes out as a debit, not a credit. -/
theorem C10_zero_net_spread_witness :
    (∃ r, calculate_spread 100 1 "E" 90 1 "E" 50 OptionType.put Broker.ibkr
        7 = some r
      ∧ r.is_credit = false
      ∧ r.net_credit = 0
      ∧ r.net_debit = 0
      ∧ r.spread_type.credit_kind = false
      ∧ (0 < r.spread_width →
          r.spread_type = SpreadKind.verticalDebit OptionType.put ∨
          r.spread_type = SpreadKind.pmcc ∨
          r.spread_type = SpreadKind.pmcp))
    ∧ (calculate_spread_internal_classify 100 1 90 1 "E" "E"
        OptionType.put).2 = false
    ∧ ((calculate_spread_internal_classify 100 1 90 1 "E" "E"
        OptionType.put).1).credit_kind = false :=
  C10_zero_net_spread 100 1 "E" 90 1 "E" 50 OptionType.put Broker.ibkr 7
    (by norm_num) (by norm_num) (by norm_num) (by norm_num) rfl

/-- The standard normal density is even. -/
lemma norm_pdf_even (t : ℝ) :
    gaussianPDFReal 0 1 (-t) = gaussianPDFReal 0 1 t := by
  simp [gaussianPDFReal, neg_sq]

lemma normCdf_nonneg (x : ℝ) : 0 ≤ normCdf x :=
  setIntegral_nonneg measurableSet_Iic fun t _ => gaussianPDFReal_nonneg 0 1 t

lemma normCdf_le_one (x : ℝ) : normCdf x ≤ 1 := by
  have h1 : normCdf x ≤ ∫ t, gaussianPDFReal 0 1 t :=
    setIntegral_le_integral (integrable_gaussianPDFReal 0 1)
      (Filter.Eventually.of_forall fun t => gaussianPDFReal_nonneg 0 1 t)
  calc normCdf x ≤ _ := h1
    _ = 1 := integral_gaussianPDFReal_eq_one 0 one_ne_zero

lemma normCdf_split {a b : ℝ} (h : a ≤ b) :
    normCdf b = normCdf a + ∫ t in Set.Ioc a b, gaussianPDFReal 0 1 t := by
  rw [normCdf, normCdf, ← Set.Iic_union_Ioc_eq_Iic h,
    setIntegral_union (Set.Iic_disjoint_Ioc le_rfl) measurableSet_Ioc
      (integrable_gaussianPDFReal 0 1).integrableOn
      (integrable_gaussianPDFReal 0 1).integrableOn]

lemma normCdf_strictMono {a b : ℝ} (h : a < b) : normCdf a < normCdf b := by
  have hpos : 0 < ∫ t in Set.Ioc a b, gaussianPDFReal 0 1 t := by
    rw [setIntegral_pos_iff_support_of_nonneg_ae
      (Filter.Eventually.of_forall fun t => gaussianPDFReal_nonneg 0 1 t)
      (integrable_gaussianPDFReal 0 1).integrableOn]
    have hsupp : (Function.support fun t => gaussianPDFReal 0 1 t)
        = Set.univ := by
      ext t
      simp [Function.support, ne_of_gt (gaussianPDFReal_pos 0 1 t one_ne_zero)]
    rw [hsupp, Set.univ_inter]
    simpa using h
  have := normCdf_split h.le
  linarith

lemma normCdf_neg (x : ℝ) : normCdf (-x) = 1 - normCdf x := by
  have h1 : normCdf (-x) = ∫ t in Set.Ioi x, gaussianPDFReal 0 1 t := by
    rw [normCdf]
    have he : (∫ t in Set.Iic (-x), gaussianPDFReal 0 1 t)
        = ∫ t in Set.Iic (-x), gaussianPDFReal 0 1 (-t) := by
      simp_rw [norm_pdf_even]
    rw [he, integral_comp_neg_Iic, neg_neg]
  have h2 : normCdf x + ∫ t in Set.Ioi x, gaussianPDFReal 0 1 t = 1 := by
    rw [normCdf, intervalIntegral.integral_Iic_add_Ioi
      (integrable_gaussianPDFReal 0 1).integrableOn
      (integrable_gaussianPDFReal 0 1).integrableOn]
    exact integral_gaussianPDFReal_eq_one 0 one_ne_zero
  linarith

/-- Sign conditions under which the `d1` line evaluates without a Python
exception. -/
lemma d1_term_ok {S K T sigma : ℝ} (r : ℝ) (hK : K ≠ 0) (hSK : 0 < S / K)
    (hs : sigma * Real.sqrt T ≠ 0) :
    d1_term S K T r sigma = .ok (d1_val S K T r sigma) := by
  simp [d1_term, hK, not_le.mpr hSK, hs]

lemma delta_put_ok {S K T sigma : ℝ} (r : ℝ) (hK : K ≠ 0) (hSK : 0 < S / K)
    (hs : sigma * Real.sqrt T ≠ 0) :
    black_scholes_delta_put S K T r sigma
      = .ok (put_delta_val S K T r sigma) := by
  by_cases hT : T ≤ 0
  · simp [black_scholes_delta_put, put_delta_val, hT]
  · simp [black_scholes_delta_put, put_delta_val, hT, d1_term_ok r hK hSK hs,
      Except.map]

lemma delta_call_ok {S K T sigma : ℝ} (r : ℝ) (hK : K ≠ 0) (hSK : 0 < S / K)
    (hs : sigma * Real.sqrt T ≠ 0) :
    black_scholes_delta_call S K T r sigma
      = .ok (call_delta_val S K T r sigma) := by
  by_cases hT : T ≤ 0
  · simp [black_scholes_delta_call, call_delta_val, hT]
  · simp [black_scholes_delta_call, call_delta_val, hT,
      d1_term_ok r hK hSK hs, Except.map]

lemma put_price_ok {S K T sigma : ℝ} (r : ℝ) (hK : K ≠ 0) (hSK : 0 < S / K)
    (hs : sigma * Real.sqrt T ≠ 0) :
    black_scholes_put_price S K T r sigma
      = .ok (put_price_val S K T r sigma) := by
  by_cases hT : T ≤ 0
  · simp [black_scholes_put_price, put_price_val, hT]
  · simp [black_scholes_put_price, put_price_val, hT,
      d1_term_ok r hK hSK hs, Except.map]

lemma call_price_ok {S K T sigma : ℝ} (r : ℝ) (hK : K ≠ 0) (hSK : 0 < S / K)
    (hs : sigma * Real.sqrt T ≠ 0) :
    black_scholes_call_price S K T r sigma
      = .ok (call_price_val S K T r sigma) := by
  by_cases hT : T ≤ 0
  · simp [black_scholes_call_price, call_price_val, hT]
  · simp [black_scholes_call_price, call_price_val, hT,
      d1_term_ok r hK hSK hs, Except.map]

/-- Claim C3 counterexample: at S = K = 100, T = 1, r = 0 and negative
volatility sigma = -1/5 (an invalid input with sigma ≤ 0), the price and
delta functions raise nothing at all: they return plain numeric values,
so "fail with an InvalidInputError" is false. -/
theorem C3_counterexample :
    (black_scholes_put_price 100 100 1 0 (-(1 / 5))).isOk = true
    ∧ (black_scholes_delta_put 100 100 1 0 (-(1 / 5))).isOk = true := by
  have hs : (-(1 / 5) : ℝ) * Real.sqrt 1 ≠ 0 := by
    rw [Real.sqrt_one]
    norm_num
  constructor
  · rw [put_price_ok 0 (by norm_num) (by norm_num) hs]
    rfl
  · rw [delta_put_ok 0 (by norm_num) (by norm_num) hs]
    rfl

/-- Claim C3 amended: the pricing and delta functions perform no input
validation of their own and no `InvalidInputError` exists.  For T > 0 the
errors that do occur are the generic ones of the evaluated formula:
`ZeroDivisionError` when K = 0 or when sigma = 0, and `ValueError` from
`math.log` exactly when S/K ≤ 0 (e.g. S ≤ 0 < K); a negative sigma with
S, K > 0 raises nothing and silently yields a numeric value. -/
theorem C3_no_validation (S K T r sigma : ℝ) (hT : 0 < T) :
    (K = 0 →
      black_scholes_put_price S K T r sigma = .error .zeroDivisionError
      ∧ black_scholes_call_price S K T r sigma = .error .zeroDivisionError
      ∧ black_scholes_delta_put S K T r sigma = .error .zeroDivisionError
      ∧ black_scholes_delta_call S K T r sigma = .error .zeroDivisionError)
    ∧ (S / K ≤ 0 → K ≠ 0 →
      black_scholes_put_price S K T r sigma = .error .valueError
      ∧ black_scholes_call_price S K T r sigma = .error .valueError
      ∧ black_scholes_delta_put S K T r sigma = .error .valueError
      ∧ black_scholes_delta_call S K T r sigma = .error .valueError)
    ∧ (sigma = 0 → 0 < S / K → K ≠ 0 →
      black_scholes_put_price S K T r sigma = .error .zeroDivisionError
      ∧ black_scholes_call_price S K T r sigma = .error .zeroDivisionError
      ∧ black_scholes_delta_put S K T r sigma = .error .zeroDivisionError
      ∧ black_scholes_delta_call S K T r sigma = .error .zeroDivisionError)
    ∧ (sigma < 0 → 0 < S / K → K ≠ 0 →
      (black_scholes_put_price S K T r sigma).isOk = true
      ∧ (black_scholes_call_price S K T r sigma).isOk = true
      ∧ (black_scholes_delta_put S K T r sigma).isOk = true
      ∧ (black_scholes_delta_call S K T r sigma).isOk = true) := by
  have hT' : ¬ T ≤ 0 := not_le.mpr hT
  refine ⟨?_, ?_, ?_, ?_⟩
  · intro hK
    refine ⟨?_, ?_, ?_, ?_⟩ <;>
      simp [black_scholes_put_price, black_scholes_call_price,
        black_scholes_delta_put, black_scholes_delta_call, d1_term, hT', hK,
        Except.map]
  · intro hSK hK
    refine ⟨?_, ?_, ?_, ?_⟩ <;>
      simp [black_scholes_put_price, black_scholes_call_price,
        black_scholes_delta_put, black_scholes_delta_call, d1_term, hT', hK,
        hSK, Except.map]
  · intro hsig hSK hK
    have hz : sigma * Real.sqrt T = 0 := by
      rw [hsig]
      ring
    refine ⟨?_, ?_, ?_, ?_⟩ <;>
      simp [black_scholes_put_price, black_scholes_call_price,
        black_scholes_delta_put, black_scholes_delta_call, d1_term, hT', hK,
        not_le.mpr hSK, hz, Except.map]
  · intro hsig hSK hK
    have hs : sigma * Real.sqrt T ≠ 0 :=
      mul_ne_zero (ne_of_lt hsig) (ne_of_gt (Real.sqrt_pos.mpr hT))
    refine ⟨?_, ?_, ?_, ?_⟩
    · rw [put_price_ok r hK hSK hs]
      rfl
    · rw [call_price_ok r hK hSK hs]
      rfl
    · rw [delta_put_ok r hK hSK hs]
      rfl
    · rw [delta_call_ok r hK hSK hs]
      rfl

/-- Claim C3 witness: the amended behaviour evaluated concretely — a
math-domain `ValueError` at S = -1, K = 1, and silent numeric results at
S = K = 1 with sigma = -1. -/
theorem C3_no_validation_witness :
    (black_scholes_put_price (-1) 1 1 0 1 = .error .valueError
      ∧ black_scholes_call_price (-1) 1 1 0 1 = .error .valueError
      ∧ black_scholes_delta_put (-1) 1 1 0 1 = .error .valueError
      ∧ black_scholes_delta_call (-1) 1 1 0 1 = .error .valueError)
    ∧ ((black_scholes_put_price 1 1 1 0 (-1)).isOk = true
      ∧ (black_scholes_call_price 1 1 1 0 (-1)).isOk = true
      ∧ (black_scholes_delta_put 1 1 1 0 (-1)).isOk = true
      ∧ (black_scholes_delta_call 1 1 1 0 (-1)).isOk = true) :=
  ⟨(C3_no_validation (-1) 1 1 0 1 one_pos).2.1 (by norm_num) (by norm_num),
   (C3_no_validation 1 1 1 0 (-1) one_pos).2.2.2 (by norm_num) (by norm_num)
     (by norm_num)⟩

/-- Claim C4: for S, K, T, sigma > 0 both deltas evaluate without error
and `delta_call - delta_put = 1` exactly, both being built from the same
`d1` term (N(d1) and N(d1) - 1). -/
theorem C4_put_call_delta (S K T r sigma : ℝ) (hS : 0 < S) (hK : 0 < K)
    (hT : 0 < T) (hsig : 0 < sigma) :
    ∃ dc dp, black_scholes_delta_call S K T r sigma = .ok dc
      ∧ black_scholes_delta_put S K T r sigma = .ok dp
      ∧ dc - dp = 1 := by
  have hT' : ¬ T ≤ 0 := not_le.mpr hT
  have hK' : K ≠ 0 := ne_of_gt hK
  have hSK : 0 < S / K := div_pos hS hK
  have hs : sigma * Real.sqrt T ≠ 0 :=
    mul_ne_zero (ne_of_gt hsig) (ne_of_gt (Real.sqrt_pos.mpr hT))
  refine ⟨normCdf (d1_val S K T r sigma), normCdf (d1_val S K T r sigma) - 1,
    ?_, ?_, by ring⟩
  · rw [delta_call_ok r hK' hSK hs]
    simp [call_delta_val, hT']
  · rw [delta_put_ok r hK' hSK hs]
    simp [put_delta_val, hT']

/-- Claim C4 witness: the delta identity instantiated at
S = K = T = sigma = 1, r = 0. -/
theorem C4_put_call_delta_witness :
    ∃ dc dp, black_scholes_delta_call 1 1 1 0 1 = .ok dc
      ∧ black_scholes_delta_put 1 1 1 0 1 = .ok dp
      ∧ dc - dp = 1 :=
  C4_put_call_delta 1 1 1 0 1 one_pos one_pos one_pos one_pos

/-- Claim C5: at T = 0 the PUT price equals the intrinsic value
`max(K - S, 0)` exactly and the PUT delta is the step function -1 on
S < K and 0 otherwise — the closed-form arm (and its division by
sigma*sqrt(T)) is never evaluated, so no error can arise at expiry. -/
theorem C5_expiry_values (S K r sigma : ℝ) (hS : 0 < S) (hK : 0 < K)
    (hsig : 0 < sigma) :
    black_scholes_put_price S K 0 r sigma = .ok (max (K - S) 0)
    ∧ (S < K → black_scholes_delta_put S K 0 r sigma = .ok (-1))
    ∧ (¬ S < K → black_scholes_delta_put S K 0 r sigma = .ok 0)
    ∧ ∃ d, black_scholes_delta_put S K 0 r sigma = .ok d
        ∧ (d = -1 ∨ d = 0) := by
  refine ⟨by simp [black_scholes_put_price], ?_, ?_, ?_⟩
  · intro h
    simp [black_scholes_delta_put, h]
  · intro h
    simp [black_scholes_delta_put, h]
  · by_cases h : S < K
    · exact ⟨-1, by simp [black_scholes_delta_put, h], Or.inl rfl⟩
    · exact ⟨0, by simp [black_scholes_delta_put, h], Or.inr rfl⟩

/-- Claim C5 witness: expiry values at S = 1, K = 2 (in the money,
delta -1) with sigma = 1. -/
theorem C5_expiry_values_witness :
    black_scholes_put_price 1 2 0 0 1 = .ok (max (2 - 1) 0)
    ∧ ((1 : ℝ) < 2 → black_scholes_delta_put 1 2 0 0 1 = .ok (-1))
    ∧ (¬ (1 : ℝ) < 2 → black_scholes_delta_put 1 2 0 0 1 = .ok 0)
    ∧ ∃ d, black_scholes_delta_put 1 2 0 0 1 = .ok d
        ∧ (d = -1 ∨ d = 0) :=
  C5_expiry_values 1 2 0 1 one_pos (by norm_num) one_pos

/-- Claim C6: the inverse delta solver searches exactly the bracket
`[0.7K, 1.1K]` for puts and `[0.9K, 1.3K]` for calls, and when the
bracket has no sign change (both endpoint evaluations succeed with the
same nonzero sign, so `brentq` raises) the solver returns `None`; the
exit-price caller then emits no row for that target, in particular it
never substitutes the strike for the missing result. -/
theorem C6_solver_bracket (bq : RootFinder) (target K T r sigma : ℝ) :
    find_underlying_for_delta bq target K T r sigma false
        = except_to_option
            (bq.run (delta_diff target K T r sigma false) (K * 0.7) (K * 1.1))
    ∧ find_underlying_for_delta bq target K T r sigma true
        = except_to_option
            (bq.run (delta_diff target K T r sigma true) (K * 0.9) (K * 1.3))
    ∧ (no_sign_change (delta_diff target K T r sigma false) (K * 0.7)
          (K * 1.1) →
        find_underlying_for_delta bq target K T r sigma false = none
        ∧ exit_table_row bq target K T r sigma false = none)
    ∧ (no_sign_change (delta_diff target K T r sigma true) (K * 0.9)
          (K * 1.3) →
        find_underlying_for_delta bq target K T r sigma true = none
        ∧ exit_table_row bq target K T r sigma true = none) := by
  have hput : find_underlying_for_delta bq target K T r sigma false
      = except_to_option
          (bq.run (delta_diff target K T r sigma false) (K * 0.7)
            (K * 1.1)) := by
    simp [find_underlying_for_delta]
  have hcall : find_underlying_for_delta bq target K T r sigma true
      = except_to_option
          (bq.run (delta_diff target K T r sigma true) (K * 0.9)
            (K * 1.3)) := by
    simp [find_underlying_for_delta]
  refine ⟨hput, hcall, ?_, ?_⟩
  · rintro ⟨fa, fb, hfa, hfb, hprod⟩
    have hrun := bq.same_sign_error _ _ _ _ _ hfa hfb hprod
    have hnone : find_underlying_for_delta bq target K T r sigma false
        = none := by
      rw [hput, hrun]
      rfl
    exact ⟨hnone, by rw [exit_table_row, hnone]⟩
  · rintro ⟨fa, fb, hfa, hfb, hprod⟩
    have hrun := bq.same_sign_error _ _ _ _ _ hfa hfb hprod
    have hnone : find_underlying_for_delta bq target K T r sigma true
        = none := by
      rw [hcall, hrun]
      rfl
    exact ⟨hnone, by rw [exit_table_row, hnone]⟩

/-- Claim C6 witness: an unreachable put target delta of 5 makes both
bracket endpoints negative (every put delta lies in [-1, 0]), so the
solver and the caller row both come out `None`. -/
theorem C6_solver_bracket_witness :
    find_underlying_for_delta no_root_finder 5 100 1 0 1 false = none
    ∧ exit_table_row no_root_finder 5 100 1 0 1 false = none := by
  have hs : (1 : ℝ) * Real.sqrt 1 ≠ 0 := by
    rw [Real.sqrt_one]
    norm_num
  have h70 : (100 : ℝ) * 0.7 = 70 := by norm_num
  have h110 : (100 : ℝ) * 1.1 = 110 := by norm_num
  have hfa : delta_diff 5 100 1 0 1 false (100 * 0.7)
      = .ok (put_delta_val 70 100 1 0 1 - 5) := by
    rw [h70]
    simp only [delta_diff, Bool.false_eq_true, if_false,
      delta_put_ok 0 (by norm_num : (100 : ℝ) ≠ 0)
        (by norm_num : (0 : ℝ) < 70 / 100) hs, Except.map]
  have hfb : delta_diff 5 100 1 0 1 false (100 * 1.1)
      = .ok (put_delta_val 110 100 1 0 1 - 5) := by
    rw [h110]
    simp only [delta_diff, Bool.false_eq_true, if_false,
      delta_put_ok 0 (by norm_num : (100 : ℝ) ≠ 0)
        (by norm_num : (0 : ℝ) < 110 / 100) hs, Except.map]
  have hva : put_delta_val 70 100 1 0 1 - 5 < 0 := by
    have := normCdf_le_one (d1_val 70 100 1 0 1)
    have : put_delta_val 70 100 1 0 1 ≤ 0 := by
      simp only [put_delta_val]
      norm_num
      linarith
    linarith
  have hvb : put_delta_val 110 100 1 0 1 - 5 < 0 := by
    have := normCdf_le_one (d1_val 110 100 1 0 1)
    have : put_delta_val 110 100 1 0 1 ≤ 0 := by
      simp only [put_delta_val]
      norm_num
      linarith
    linarith
  have hnsc : no_sign_change (delta_diff 5 100 1 0 1 false) (100 * 0.7)
      (100 * 1.1) :=
    ⟨_, _, hfa, hfb, mul_pos_of_neg_of_neg hva hvb⟩
  have h := (C6_solver_bracket no_root_finder 5 100 1 0 1).2.2.1 hnsc
  exact ⟨h.1, h.2⟩

/-- `max(risk, 1)` with `risk = |tc| if tc != 0 else 1` equals
`max(|tc|, 1)`. -/
lemma max_risk_eq (tc : ℚ) :
    max (if tc ≠ 0 then |tc| else 1) 1 = max |tc| 1 := by
  by_cases h : tc = 0
  · simp [h]
  · simp [h]

/-- Claim C7 counterexample: the Close scenario (break-even column `'-'`,
realized P/L ≥ 0) receives score 100, its bare probability, not the
claimed `prob × 100 / max(|totalCost|, 1) = 10000`. -/
theorem C7_counterexample :
    roll_score (close_scenario 0 100 1) = 100
    ∧ (close_scenario 0 100 1).prob_profit * 100
        / max |(close_scenario 0 100 1).total_cost| 1 = 10000
    ∧ roll_score (close_scenario 0 100 1)
        ≠ (close_scenario 0 100 1).prob_profit * 100
          / max |(close_scenario 0 100 1).total_cost| 1 := by
  refine ⟨?_, ?_, ?_⟩ <;> norm_num [roll_score, close_scenario]

/-- Claim C7 amended: a candidate's score equals
`prob × 100 / max(|totalCost|, 1)` when its probability is positive and
its break-even column is numeric, and equals the bare probability
otherwise (the Close candidate and zero-probability candidates); the
candidate list is sorted descending by score and the recommendation is
its first element. -/
theorem C7_score_and_ranking (l : List RollScenario) :
    (∀ s ∈ rank_roll_scenarios l,
      s.score = roll_score s.scenario
      ∧ (0 < s.scenario.prob_profit ∧ s.scenario.break_even ≠ none →
          s.score = s.scenario.prob_profit * 100
            / max |s.scenario.total_cost| 1)
      ∧ (¬ (0 < s.scenario.prob_profit ∧ s.scenario.break_even ≠ none) →
          s.score = s.scenario.prob_profit))
    ∧ (rank_roll_scenarios l).Sorted score_desc
    ∧ roll_recommendation l = (rank_roll_scenarios l).head? := by
  refine ⟨?_, List.sorted_insertionSort score_desc _, rfl⟩
  intro s hs
  have hmem : s ∈ l.map fun sc => ScoredScenario.mk sc (roll_score sc) :=
    ((List.perm_insertionSort score_desc _).mem_iff).1 hs
  obtain ⟨sc, _, rfl⟩ := List.mem_map.1 hmem
  refine ⟨rfl, ?_, ?_⟩
  · intro hcond
    show roll_score sc = _
    rw [roll_score, if_pos hcond, max_risk_eq]
  · intro hcond
    show roll_score sc = _
    rw [roll_score, if_neg hcond]

/-- Claim C7 witness: a two-candidate list (a roll candidate with
probability 50 and total cost 10, and a profitable Close candidate); the
scored formula, the descending sort and the head recommendation all hold
concretely. -/
theorem C7_score_and_ranking_witness :
    (ScoredScenario.mk (RollScenario.mk 50 10 (some 0))
        (roll_score (RollScenario.mk 50 10 (some 0)))).score
      = (50 : ℚ) * 100 / max |(10 : ℚ)| 1
    ∧ (rank_roll_scenarios
        [RollScenario.mk 50 10 (some 0), close_scenario 0 100 1]).Sorted
        score_desc
    ∧ roll_recommendation
        [RollScenario.mk 50 10 (some 0), close_scenario 0 100 1]
      = (rank_roll_scenarios
          [RollScenario.mk 50 10 (some 0), close_scenario 0 100 1]).head? := by
  have h := C7_score_and_ranking
    [RollScenario.mk 50 10 (some 0), close_scenario 0 100 1]
  refine ⟨?_, h.2.1, h.2.2⟩
  have hmem : ScoredScenario.mk (RollScenario.mk 50 10 (some 0))
      (roll_score (RollScenario.mk 50 10 (some 0)))
      ∈ rank_roll_scenarios
          [RollScenario.mk 50 10 (some 0), close_scenario 0 100 1] := by
    rw [rank_roll_scenarios]
    exact ((List.perm_insertionSort score_desc _).mem_iff).2 (by simp)
  have hc := (h.1 _ hmem).2.1 ⟨by norm_num, by simp⟩
  simpa using hc

lemma dte_T_pos (dte_days : ℤ) : 0 < dte_T dte_days := by
  unfold dte_T
  apply div_pos _ (by norm_num)
  have h1 : (1 : ℤ) ≤ max 1 dte_days := le_max_left 1 dte_days
  exact_mod_cast lt_of_lt_of_le Int.zero_lt_one h1

lemma grid_lo_pos (underlying : ℝ) : 0 < grid_lo underlying :=
  lt_max_of_lt_left (by norm_num)

lemma scan_ks_pos {underlying : ℝ} (hu : 0 < underlying) {steps i : ℕ}
    (hst : 0 < steps) (hi : i ≤ steps) : 0 < scan_ks underlying steps i := by
  have hL : 0 < grid_lo underlying := grid_lo_pos underlying
  have hH : 0 < grid_hi underlying := by
    unfold grid_hi
    positivity
  have ht0 : 0 ≤ (i : ℝ) / steps := by positivity
  have ht1 : (i : ℝ) / steps ≤ 1 := by
    rw [div_le_one (by exact_mod_cast hst)]
    exact_mod_cast hi
  unfold scan_ks
  rw [mul_div_assoc]
  rcases le_or_lt (grid_lo underlying) (grid_hi underlying) with hLH | hHL
  · have : 0 ≤ (grid_hi underlying - grid_lo underlying) * ((i : ℝ) / steps) :=
      mul_nonneg (by linarith) ht0
    linarith
  · have : (grid_hi underlying - grid_lo underlying) * 1
        ≤ (grid_hi underlying - grid_lo underlying) * ((i : ℝ) / steps) :=
      mul_le_mul_of_nonpos_left ht1 (by linarith)
    linarith

lemma scan_ks_ge_lo {underlying : ℝ}
    (h : grid_lo underlying ≤ grid_hi underlying) {steps i : ℕ}
    (hst : 0 < steps) (hi : i ≤ steps) :
    grid_lo underlying ≤ scan_ks underlying steps i := by
  have ht0 : 0 ≤ (i : ℝ) / steps := by positivity
  unfold scan_ks
  rw [mul_div_assoc]
  have : 0 ≤ (grid_hi underlying - grid_lo underlying) * ((i : ℝ) / steps) :=
    mul_nonneg (by linarith) ht0
  linarith

lemma scan_ks_ge_min {underlying : ℝ} {steps i : ℕ}
    (hst : 0 < steps) (hi : i ≤ steps) :
    min (grid_lo underlying) (grid_hi underlying)
      ≤ scan_ks underlying steps i := by
  have ht0 : 0 ≤ (i : ℝ) / steps := by positivity
  have ht1 : (i : ℝ) / steps ≤ 1 := by
    rw [div_le_one (by exact_mod_cast hst)]
    exact_mod_cast hi
  unfold scan_ks
  rw [mul_div_assoc]
  rcases le_total (grid_lo underlying) (grid_hi underlying) with hLH | hHL
  · have h1 : 0 ≤ (grid_hi underlying - grid_lo underlying)
        * ((i : ℝ) / steps) := mul_nonneg (by linarith) ht0
    have h2 : min (grid_lo underlying) (grid_hi underlying)
        ≤ grid_lo underlying := min_le_left _ _
    linarith
  · have h1 : (grid_hi underlying - grid_lo underlying) * 1
        ≤ (grid_hi underlying - grid_lo underlying) * ((i : ℝ) / steps) :=
      mul_le_mul_of_nonpos_left ht1 (by linarith)
    have h2 : min (grid_lo underlying) (grid_hi underlying)
        ≤ grid_hi underlying := min_le_right _ _
    linarith

lemma delta_for_K_ok (ty : OptionType) {underlying T K iv : ℝ} (r : ℝ)
    (hu : 0 < underlying) (hK : 0 < K) (hT : 0 < T) (hiv : iv ≠ 0) :
    delta_for_K ty underlying T r iv K
      = .ok (delta_val_for_K ty underlying T r iv K) := by
  have hs : iv * Real.sqrt T ≠ 0 :=
    mul_ne_zero hiv (ne_of_gt (Real.sqrt_pos.mpr hT))
  cases ty
  · exact delta_call_ok r (ne_of_gt hK) (div_pos hu hK) hs
  · exact delta_put_ok r (ne_of_gt hK) (div_pos hu hK) hs

lemma except_all_ok {α β : Type} (f : β → Except PyErr α) (g : β → α)
    (l : List β) (h : ∀ x ∈ l, f x = .ok (g x)) :
    except_all (l.map f) = .ok (l.map g) := by
  induction l with
  | nil => rfl
  | cons x xs ih =>
    simp only [List.map_cons, except_all, h x (List.mem_cons_self x xs)]
    rw [ih fun y hy => h y (List.mem_cons_of_mem x hy)]
    rfl

lemma range_map_getD {α : Type} (g : ℕ → α) (n i : ℕ) (hi : i < n)
    (d : α) : ((List.range n).map g).getD i d = g i := by
  rw [List.getD_eq_getElem?_getD, List.getElem?_map, List.getElem?_range hi]
  rfl

lemma bracket_scan_none (bq : RootFinder) (f : ℝ → Except PyErr ℝ)
    (ks fv : ℕ → ℝ)
    (h : ∀ i, i < 60 → fv i ≠ 0 ∧ 0 ≤ fv i * fv (i + 1)) :
    ∀ j, bracket_scan bq f ks fv j = none := by
  have key : ∀ m j, 60 - j ≤ m → bracket_scan bq f ks fv j = none := by
    intro m
    induction m with
    | zero =>
      intro j hj
      rw [bracket_scan]
      have : ¬ j < 60 := by omega
      simp [this]
    | succ m ih =>
      intro j hj
      rw [bracket_scan]
      by_cases hlt : j < 60
      · obtain ⟨hne, hnn⟩ := h j hlt
        rw [if_pos hlt, if_neg hne, if_neg (not_lt.mpr hnn)]
        exact ih (j + 1) (by omega)
      · simp [hlt]
  exact fun j => key 60 j (by omega)

lemma best_scan_spec (key val : ℕ → ℝ) (n : ℕ) (hn : 0 < n) :
    ∃ j, j < n ∧ best_scan key val n = some (key j, val j)
      ∧ ∀ m, m < n → val j ≤ val m := by
  induction n with
  | zero => omega
  | succ n ih =>
    have hstep : best_scan key val (n + 1)
        = best_step key val (best_scan key val n) n := by
      unfold best_scan
      rw [List.range_succ, List.foldl_append, List.foldl_cons, List.foldl_nil]
    rcases Nat.eq_zero_or_pos n with hz | hpos
    · subst hz
      exact ⟨0, by omega, by rw [hstep]; rfl, by
        intro m hm
        interval_cases m
        exact le_rfl⟩
    · obtain ⟨j, hj, hbs, hmin⟩ := ih hpos
      by_cases hlt : val n < val j
      · refine ⟨n, by omega, ?_, ?_⟩
        · rw [hstep, hbs]
          simp [best_step, hlt]
        · intro m hm
          rcases Nat.lt_succ_iff_lt_or_eq.mp hm with hm' | rfl
          · exact le_of_lt (lt_of_lt_of_le hlt (hmin m hm'))
          · exact le_rfl
      · refine ⟨j, by omega, ?_, ?_⟩
        · rw [hstep, hbs]
          simp [best_step, hlt]
        · intro m hm
          rcases Nat.lt_succ_iff_lt_or_eq.mp hm with hm' | rfl
          · exact hmin m hm'
          · exact not_lt.mp hlt

lemma py_round2_pos {x : ℝ} (h : 1 ≤ x * 100) : 0 < py_round2 x := by
  have hn : (1 : ℤ) ≤ ⌊x * 100⌋ := Int.le_floor.mpr (by exact_mod_cast h)
  unfold py_round2
  simp only []
  split_ifs <;>
    · apply div_pos _ (by norm_num)
      exact_mod_cast (by omega : (0 : ℤ) < _)

/-- When every delta on the 60-step grid evaluates, none hits the target
exactly, and no adjacent pair changes sign, `find_strike_for_delta`
reaches the fallback scan and returns the (rounded) argmin of the
absolute delta error over the 201-point grid. -/
lemma find_strike_fallback (bq : RootFinder) (ty : OptionType)
    (target : ℝ) (dte_days : ℤ) (iv r underlying : ℝ)
    (hu : 0 < underlying) (hiv : iv ≠ 0)
    (hnsc : ∀ i, i < 60 →
      scan_fv ty target (dte_T dte_days) r iv underlying 60 i ≠ 0
      ∧ 0 ≤ scan_fv ty target (dte_T dte_days) r iv underlying 60 i
          * scan_fv ty target (dte_T dte_days) r iv underlying 60 (i + 1)) :
    ∃ j, j < 201
      ∧ find_strike_for_delta bq ty target dte_days iv r underlying
          = .ok (if scan_ks underlying 200 j = 0 then none
                 else some (py_round2 (scan_ks underlying 200 j)))
      ∧ ∀ m, m < 201 →
          |scan_fv ty target (dte_T dte_days) r iv underlying 200 j|
            ≤ |scan_fv ty target (dte_T dte_days) r iv underlying 200 m| := by
  have hT : 0 < dte_T dte_days := dte_T_pos dte_days
  have hexc60 : except_all ((List.range 61).map fun i =>
        delta_for_K ty underlying (dte_T dte_days) r iv
          (scan_ks underlying 60 i))
      = .ok ((List.range 61).map fun i =>
          delta_val_for_K ty underlying (dte_T dte_days) r iv
            (scan_ks underlying 60 i)) := by
    apply except_all_ok
    intro i hi
    exact delta_for_K_ok ty r hu
      (scan_ks_pos hu (by norm_num)
        (Nat.lt_succ_iff.mp (List.mem_range.mp hi)))
      hT hiv
  have hexc201 : except_all ((List.range 201).map fun i =>
        delta_for_K ty underlying (dte_T dte_days) r iv
          (scan_ks underlying 200 i))
      = .ok ((List.range 201).map fun i =>
          delta_val_for_K ty underlying (dte_T dte_days) r iv
            (scan_ks underlying 200 i)) := by
    apply except_all_ok
    intro i hi
    exact delta_for_K_ok ty r hu
      (scan_ks_pos hu (by norm_num)
        (Nat.lt_succ_iff.mp (List.mem_range.mp hi)))
      hT hiv
  have hbrk : bracket_scan bq
      (fun K => (delta_for_K ty underlying (dte_T dte_days) r iv K).map
        (· - target))
      (scan_ks underlying 60)
      (fun i => (((List.range 61).map fun i =>
          delta_val_for_K ty underlying (dte_T dte_days) r iv
            (scan_ks underlying 60 i)).getD i 0) - target) 0 = none := by
    apply bracket_scan_none
    intro i hi
    have e1 : (((List.range 61).map fun i =>
        delta_val_for_K ty underlying (dte_T dte_days) r iv
          (scan_ks underlying 60 i)).getD i 0) - target
        = scan_fv ty target (dte_T dte_days) r iv underlying 60 i := by
      rw [range_map_getD _ 61 i (by omega)]
      rfl
    have e2 : (((List.range 61).map fun i =>
        delta_val_for_K ty underlying (dte_T dte_days) r iv
          (scan_ks underlying 60 i)).getD (i + 1) 0) - target
        = scan_fv ty target (dte_T dte_days) r iv underlying 60 (i + 1) := by
      rw [range_map_getD _ 61 (i + 1) (by omega)]
      rfl
    rw [e1, e2]
    exact hnsc i hi
  obtain ⟨j, hj, hbs, hmin⟩ := best_scan_spec (scan_ks underlying 200)
    (fun i => |(((List.range 201).map fun i =>
        delta_val_for_K ty underlying (dte_T dte_days) r iv
          (scan_ks underlying 200 i)).getD i 0) - target|) 201 (by norm_num)
  refine ⟨j, hj, ?_, ?_⟩
  · simp only [find_strike_for_delta, hexc60, hbrk, hexc201, hbs]
  · intro m hm
    have ej : (((List.range 201).map fun i =>
        delta_val_for_K ty underlying (dte_T dte_days) r iv
          (scan_ks underlying 200 i)).getD j 0) - target
        = scan_fv ty target (dte_T dte_days) r iv underlying 200 j := by
      rw [range_map_getD _ 201 j hj]
      rfl
    have em : (((List.range 201).map fun i =>
        delta_val_for_K ty underlying (dte_T dte_days) r iv
          (scan_ks underlying 200 i)).getD m 0) - target
        = scan_fv ty target (dte_T dte_days) r iv underlying 200 m := by
      rw [range_map_getD _ 201 m hm]
      rfl
    have := hmin m hm
    rwa [ej, em] at this

/-- Claim C9 amended: the balancer computes the long delta via the
pricer, uses its negation as the target for the opposite option type,
and when the 60-step bracket scan finds no zero and no sign change it
returns the proposal built from the 201-point coarse grid strike
minimizing the absolute delta error (rounded to cents) — provided the
rounded strike is nonzero, which holds whenever the underlying is at
least 1/300 (every grid strike is then at least the cent 0.01 and
survives `round(best_k, 2)`).  Below that threshold the best strike can
round to 0.0, which `if not opp_strike:` treats as failure
(`C9_counterexample`). -/
theorem C9_balancer_fallback (bq : RootFinder) (long_type : OptionType)
    (long_strike : ℝ) (dte_days : ℤ) (underlying iv r ld : ℝ)
    (hu : 1 / 300 ≤ underlying) (hiv : iv ≠ 0)
    (hld : delta_for_K long_type underlying (dte_T dte_days) r iv
      long_strike = .ok ld)
    (hnsc : ∀ i, i < 60 →
      scan_fv (opposite long_type) (-ld) (dte_T dte_days) r iv underlying
        60 i ≠ 0
      ∧ 0 ≤ scan_fv (opposite long_type) (-ld) (dte_T dte_days) r iv
            underlying 60 i
          * scan_fv (opposite long_type) (-ld) (dte_T dte_days) r iv
            underlying 60 (i + 1)) :
    ∃ j, j < 201 ∧ ∃ p : BalancerProposal,
      analyze_balancer_core bq long_type long_strike dte_days underlying iv
          r = .ok (.proposal p)
      ∧ p.long_delta = ld
      ∧ p.opp_strike = py_round2 (scan_ks underlying 200 j)
      ∧ ∀ m, m < 201 →
          |scan_fv (opposite long_type) (-ld) (dte_T dte_days) r iv
            underlying 200 j|
          ≤ |scan_fv (opposite long_type) (-ld) (dte_T dte_days) r iv
              underlying 200 m| := by
  have hu0 : (0 : ℝ) < underlying := lt_of_lt_of_le (by norm_num) hu
  have hT : 0 < dte_T dte_days := dte_T_pos dte_days
  obtain ⟨j, hj, hfind, hmin⟩ := find_strike_fallback bq
    (opposite long_type) (-ld) dte_days iv r underlying hu0 hiv hnsc
  have hbk_cent : (0.01 : ℝ) ≤ scan_ks underlying 200 j := by
    have h1 : (0.01 : ℝ) ≤ grid_lo underlying := le_max_left _ _
    have h2 : (0.01 : ℝ) ≤ grid_hi underlying := by
      unfold grid_hi
      linarith
    have h3 : min (grid_lo underlying) (grid_hi underlying)
        ≤ scan_ks underlying 200 j :=
      scan_ks_ge_min (by norm_num) (by omega)
    calc (0.01 : ℝ) ≤ min (grid_lo underlying) (grid_hi underlying) :=
          le_min h1 h2
      _ ≤ scan_ks underlying 200 j := h3
  have hbk_ne : ¬ scan_ks underlying 200 j = 0 := by
    intro h0
    rw [h0] at hbk_cent
    norm_num at hbk_cent
  rw [if_neg hbk_ne] at hfind
  have hround_pos : 0 < py_round2 (scan_ks underlying 200 j) :=
    py_round2_pos (by nlinarith)
  have hround_ne : ¬ py_round2 (scan_ks underlying 200 j) = 0 :=
    hround_pos.ne'
  have hnle : ¬ underlying ≤ 0 := not_le.mpr hu0
  have hs : iv * Real.sqrt (dte_T dte_days) ≠ 0 :=
    mul_ne_zero hiv (Real.sqrt_pos.mpr hT).ne'
  cases long_type
  case call =>
    simp only [opposite] at hfind hmin ⊢
    have hprice : black_scholes_put_price underlying
        (py_round2 (scan_ks underlying 200 j)) (dte_T dte_days) r iv
        = .ok (put_price_val underlying
            (py_round2 (scan_ks underlying 200 j)) (dte_T dte_days) r iv) :=
      put_price_ok r hround_pos.ne' (div_pos hu0 hround_pos) hs
    have hdelta : delta_for_K .put underlying (dte_T dte_days) r iv
        (py_round2 (scan_ks underlying 200 j))
        = .ok (delta_val_for_K .put underlying (dte_T dte_days) r iv
            (py_round2 (scan_ks underlying 200 j))) :=
      delta_for_K_ok .put r hu0 hround_pos hT hiv
    refine ⟨j, hj, ⟨py_round2 (scan_ks underlying 200 j),
      put_price_val underlying (py_round2 (scan_ks underlying 200 j))
        (dte_T dte_days) r iv,
      delta_val_for_K .put underlying (dte_T dte_days) r iv
        (py_round2 (scan_ks underlying 200 j)),
      ld,
      ld + delta_val_for_K .put underlying (dte_T dte_days) r iv
        (py_round2 (scan_ks underlying 200 j))⟩, ?_, rfl, rfl, hmin⟩
    simp only [analyze_balancer_core, if_neg hnle, hld, opposite, hfind,
      if_neg hround_ne, hprice, hdelta]
  case put =>
    simp only [opposite] at hfind hmin ⊢
    have hprice : black_scholes_call_price underlying
        (py_round2 (scan_ks underlying 200 j)) (dte_T dte_days) r iv
        = .ok (call_price_val underlying
            (py_round2 (scan_ks underlying 200 j)) (dte_T dte_days) r iv) :=
      call_price_ok r hround_pos.ne' (div_pos hu0 hround_pos) hs
    have hdelta : delta_for_K .call underlying (dte_T dte_days) r iv
        (py_round2 (scan_ks underlying 200 j))
        = .ok (delta_val_for_K .call underlying (dte_T dte_days) r iv
            (py_round2 (scan_ks underlying 200 j))) :=
      delta_for_K_ok .call r hu0 hround_pos hT hiv
    refine ⟨j, hj, ⟨py_round2 (scan_ks underlying 200 j),
      call_price_val underlying (py_round2 (scan_ks underlying 200 j))
        (dte_T dte_days) r iv,
      delta_val_for_K .call underlying (dte_T dte_days) r iv
        (py_round2 (scan_ks underlying 200 j)),
      ld,
      ld + delta_val_for_K .call underlying (dte_T dte_days) r iv
        (py_round2 (scan_ks underlying 200 j))⟩, ?_, rfl, rfl, hmin⟩
    simp only [analyze_balancer_core, if_neg hnle, hld, opposite, hfind,
      if_neg hround_ne, hprice, hdelta]

/-- Claim C9 witness: a deep out-of-the-money long CALL (strike 1000 on
an underlying of 100, 30 DTE, volatility 1).  Its delta is so small that
every put delta on the bracket grid stays below the negated target, no
sign change exists, and the balancer still returns a grid-scan
proposal. -/
theorem C9_balancer_fallback_witness :
    ∃ j, j < 201 ∧ ∃ p : BalancerProposal,
      analyze_balancer_core no_root_finder OptionType.call 1000 30 100 1 0
        = .ok (.proposal p)
      ∧ p.long_delta = call_delta_val 100 1000 (dte_T 30) 0 1
      ∧ p.opp_strike = py_round2 (scan_ks 100 200 j)
      ∧ ∀ m, m < 201 →
          |scan_fv (opposite OptionType.call)
            (-(call_delta_val 100 1000 (dte_T 30) 0 1)) (dte_T 30) 0 1 100
            200 j|
          ≤ |scan_fv (opposite OptionType.call)
              (-(call_delta_val 100 1000 (dte_T 30) 0 1)) (dte_T 30) 0 1 100
              200 m| := by
  have hT : 0 < dte_T 30 := dte_T_pos 30
  have hT' : ¬ dte_T 30 ≤ 0 := not_le.mpr hT
  have hTval : dte_T 30 = 30 / 365 := by
    unfold dte_T
    norm_num
  have hsq : 0 < Real.sqrt (dte_T 30) := Real.sqrt_pos.mpr hT
  have key : ∀ i : ℕ, i ≤ 60 →
      scan_fv (opposite OptionType.call)
        (-(call_delta_val 100 1000 (dte_T 30) 0 1)) (dte_T 30) 0 1 100 60 i
        < 0 := by
    intro i hi
    have hk20 : (20 : ℝ) ≤ scan_ks 100 60 i := by
      have hlo : grid_lo 100 = 20 := by
        unfold grid_lo
        norm_num
      have := scan_ks_ge_lo
        (show grid_lo (100 : ℝ) ≤ grid_hi 100 by
          unfold grid_lo grid_hi
          norm_num) (by norm_num) hi
      rwa [hlo] at this
    have hkpos : (0 : ℝ) < scan_ks 100 60 i :=
      lt_of_lt_of_le (by norm_num) hk20
    have hab : d1_val 100 (scan_ks 100 60 i) (dte_T 30) 0 1
        < -(d1_val 100 1000 (dte_T 30) 0 1) := by
      unfold d1_val
      simp only [one_mul]
      rw [← neg_div, div_lt_div_iff_of_pos_right hsq]
      have hlog1 : Real.log (100 / scan_ks 100 60 i) ≤ Real.log 5 := by
        apply Real.log_le_log (div_pos (by norm_num) hkpos)
        rw [div_le_iff₀ hkpos]
        linarith
      have hlog2 : Real.log ((100 : ℝ) / 1000) = -Real.log 10 := by
        have h10 : ((100 : ℝ) / 1000) = (10 : ℝ)⁻¹ := by norm_num
        rw [h10, Real.log_inv]
      have hlog3 : Real.log (10 : ℝ) = Real.log 2 + Real.log 5 := by
        rw [← Real.log_mul (by norm_num) (by norm_num)]
        norm_num
      have hlog4 := Real.log_two_gt_d9
      rw [hlog2, hTval]
      nlinarith
    have hmono := normCdf_strictMono hab
    have hneg := normCdf_neg (d1_val 100 1000 (dte_T 30) 0 1)
    simp only [scan_fv, delta_val_for_K, opposite, put_delta_val,
      call_delta_val, if_neg hT']
    linarith
  apply C9_balancer_fallback no_root_finder OptionType.call 1000 30 100 1 0
    (call_delta_val 100 1000 (dte_T 30) 0 1) (by norm_num) (by norm_num)
    (delta_for_K_ok OptionType.call 0 (by norm_num) (by norm_num) hT
      (by norm_num))
  intro i hi
  refine ⟨(key i (le_of_lt hi)).ne, le_of_lt (mul_pos_of_neg_of_neg
    (key i (le_of_lt hi)) (key (i + 1) (by omega)))⟩

/-- At an underlying of 1/1000, the strike grid spans `[hi, lo] =
[0.003, 0.01]` (the grid descends, since `low = max(0.01, 0.0002) = 0.01`
exceeds `high = 0.003`). -/
lemma c9cx_ks_bounds {steps i : ℕ} (hst : 0 < steps) (hi : i ≤ steps) :
    (0.003 : ℝ) ≤ scan_ks (1 / 1000) steps i
    ∧ scan_ks (1 / 1000) steps i ≤ 0.01 := by
  have ht0 : 0 ≤ (i : ℝ) / steps := by positivity
  have ht1 : (i : ℝ) / steps ≤ 1 := by
    rw [div_le_one (by exact_mod_cast hst)]
    exact_mod_cast hi
  unfold scan_ks grid_lo grid_hi
  rw [max_eq_left (by norm_num : (1 / 1000 : ℝ) * 0.2 ≤ 0.01),
    mul_div_assoc]
  constructor <;> nlinarith

/-- At an underlying of 1/1000 with a long CALL at strike 1000 the
negated long delta is unreachably high for every grid put delta: every
`fvals` entry is strictly negative, on any grid. -/
lemma c9cx_fv_neg {steps i : ℕ} (hst : 0 < steps) (hi : i ≤ steps) :
    scan_fv (opposite OptionType.call)
      (-(call_delta_val (1 / 1000) 1000 (dte_T 30) 0 1)) (dte_T 30) 0 1
      (1 / 1000) steps i < 0 := by
  obtain ⟨hk1, hk2⟩ := c9cx_ks_bounds hst hi
  have hkpos : (0 : ℝ) < scan_ks (1 / 1000) steps i :=
    lt_of_lt_of_le (by norm_num) hk1
  have hT : 0 < dte_T 30 := dte_T_pos 30
  have hT' : ¬ dte_T 30 ≤ 0 := not_le.mpr hT
  have hTval : dte_T 30 = 30 / 365 := by
    unfold dte_T
    norm_num
  have hsq : 0 < Real.sqrt (dte_T 30) := Real.sqrt_pos.mpr hT
  have hab : d1_val (1 / 1000) (scan_ks (1 / 1000) steps i) (dte_T 30) 0 1
      < -(d1_val (1 / 1000) 1000 (dte_T 30) 0 1) := by
    unfold d1_val
    simp only [one_mul]
    rw [← neg_div, div_lt_div_iff_of_pos_right hsq]
    have hlogk : Real.log ((1 / 1000) / scan_ks (1 / 1000) steps i) ≤ 0 := by
      apply Real.log_nonpos (by positivity)
      rw [div_le_one hkpos]
      linarith
    have hlogL : Real.log ((1 / 1000 : ℝ) / 1000) = -(6 * Real.log 10) := by
      have he : ((1 / 1000 : ℝ) / 1000) = ((10 : ℝ) ^ (6 : ℕ))⁻¹ := by
        norm_num
      rw [he, Real.log_inv, Real.log_pow]
      norm_num
    have hlog10 : (0.693 : ℝ) < Real.log 10 := by
      have h2 := Real.log_two_gt_d9
      have h210 : Real.log 2 ≤ Real.log 10 :=
        Real.log_le_log (by norm_num) (by norm_num)
      linarith
    rw [hlogL, hTval]
    nlinarith
  have hmono := normCdf_strictMono hab
  have hneg := normCdf_neg (d1_val (1 / 1000) 1000 (dte_T 30) 0 1)
  simp only [scan_fv, delta_val_for_K, opposite, put_delta_val,
    call_delta_val, if_neg hT']
  linarith

/-- On the descending 201-point grid at underlying 1/1000 the absolute
delta error is strictly smallest at the last grid point (the smallest
strike), so the fallback argmin is grid index 200. -/
lemma c9cx_strict {m : ℕ} (hm : m < 200) :
    |scan_fv (opposite OptionType.call)
      (-(call_delta_val (1 / 1000) 1000 (dte_T 30) 0 1)) (dte_T 30) 0 1
      (1 / 1000) 200 200|
    < |scan_fv (opposite OptionType.call)
        (-(call_delta_val (1 / 1000) 1000 (dte_T 30) 0 1)) (dte_T 30) 0 1
        (1 / 1000) 200 m| := by
  have hneg200 := c9cx_fv_neg (by norm_num : 0 < 200) (le_refl 200)
  have hnegm := c9cx_fv_neg (by norm_num : 0 < 200) (le_of_lt hm)
  have hT : 0 < dte_T 30 := dte_T_pos 30
  have hT' : ¬ dte_T 30 ≤ 0 := not_le.mpr hT
  have hsq : 0 < Real.sqrt (dte_T 30) := Real.sqrt_pos.mpr hT
  have hk200 : (0.003 : ℝ) ≤ scan_ks (1 / 1000) 200 200 :=
    (c9cx_ks_bounds (by norm_num) (le_refl 200)).1
  have hk200pos : (0 : ℝ) < scan_ks (1 / 1000) 200 200 :=
    lt_of_lt_of_le (by norm_num) hk200
  have hkmpos : (0 : ℝ) < scan_ks (1 / 1000) 200 m :=
    lt_of_lt_of_le (by norm_num)
      (c9cx_ks_bounds (by norm_num) (le_of_lt hm)).1
  have hk : scan_ks (1 / 1000) 200 200 < scan_ks (1 / 1000) 200 m := by
    unfold scan_ks grid_lo grid_hi
    rw [max_eq_left (by norm_num : (1 / 1000 : ℝ) * 0.2 ≤ 0.01)]
    have hm' : (m : ℝ) < 200 := by exact_mod_cast hm
    have h200 : ((200 : ℕ) : ℝ) = 200 := by norm_num
    rw [mul_div_assoc, mul_div_assoc, h200]
    nlinarith
  have hdiv : (1 / 1000 : ℝ) / scan_ks (1 / 1000) 200 m
      < (1 / 1000) / scan_ks (1 / 1000) 200 200 :=
    div_lt_div_of_pos_left (by norm_num) hk200pos hk
  have hlog := Real.log_lt_log (by positivity) hdiv
  have hd1 : d1_val (1 / 1000) (scan_ks (1 / 1000) 200 m) (dte_T 30) 0 1
      < d1_val (1 / 1000) (scan_ks (1 / 1000) 200 200) (dte_T 30) 0 1 := by
    unfold d1_val
    simp only [one_mul]
    rw [div_lt_div_iff_of_pos_right hsq]
    linarith
  have hmono := normCdf_strictMono hd1
  rw [abs_of_neg hneg200, abs_of_neg hnegm]
  simp only [scan_fv, delta_val_for_K, opposite, put_delta_val,
    if_neg hT'] at *
  linarith

/-- Claim C9 counterexample: at underlying 1/1000 (long CALL 1000,
volatility 1, 30 DTE) the bracket scan finds no sign change, the coarse
grid argmin strike is 0.003, Python's `round(best_k, 2)` turns it into
0.0, and `analyze_balancer` reports "no suitable strike" — it fails
outright instead of returning the best-matching strike, refuting the
claim in the small-underlying region. -/
theorem C9_counterexample :
    bracket_scan no_root_finder
      (fun K => (delta_for_K (opposite OptionType.call) (1 / 1000)
        (dte_T 30) 0 1 K).map
        (· - -(call_delta_val (1 / 1000) 1000 (dte_T 30) 0 1)))
      (scan_ks (1 / 1000) 60)
      (fun i => scan_fv (opposite OptionType.call)
        (-(call_delta_val (1 / 1000) 1000 (dte_T 30) 0 1)) (dte_T 30) 0 1
        (1 / 1000) 60 i) 0 = none
    ∧ analyze_balancer_core no_root_finder OptionType.call 1000 30
        (1 / 1000) 1 0 = .ok BalancerOutcome.noStrikeFound := by
  have hT : 0 < dte_T 30 := dte_T_pos 30
  have hnsc : ∀ i, i < 60 →
      scan_fv (opposite OptionType.call)
        (-(call_delta_val (1 / 1000) 1000 (dte_T 30) 0 1)) (dte_T 30) 0 1
        (1 / 1000) 60 i ≠ 0
      ∧ 0 ≤ scan_fv (opposite OptionType.call)
            (-(call_delta_val (1 / 1000) 1000 (dte_T 30) 0 1)) (dte_T 30)
            0 1 (1 / 1000) 60 i
          * scan_fv (opposite OptionType.call)
            (-(call_delta_val (1 / 1000) 1000 (dte_T 30) 0 1)) (dte_T 30)
            0 1 (1 / 1000) 60 (i + 1) := by
    intro i hi
    exact ⟨(c9cx_fv_neg (by norm_num) (by omega)).ne,
      le_of_lt (mul_pos_of_neg_of_neg (c9cx_fv_neg (by norm_num) (by omega))
        (c9cx_fv_neg (by norm_num) (by omega)))⟩
  constructor
  · exact bracket_scan_none _ _ _ _ hnsc 0
  · have hld : delta_for_K OptionType.call (1 / 1000) (dte_T 30) 0 1 1000
        = .ok (call_delta_val (1 / 1000) 1000 (dte_T 30) 0 1) :=
      delta_for_K_ok OptionType.call 0 (by norm_num) (by norm_num) hT
        (by norm_num)
    obtain ⟨j, hj, hfind, hmin⟩ := find_strike_fallback no_root_finder
      (opposite OptionType.call)
      (-(call_delta_val (1 / 1000) 1000 (dte_T 30) 0 1)) 30 1 0 (1 / 1000)
      (by norm_num) (by norm_num) hnsc
    have hj200 : j = 200 := by
      by_contra hne
      have hjlt : j < 200 := by omega
      have hstrict := c9cx_strict hjlt
      have hle := hmin 200 (by norm_num)
      linarith
    subst hj200
    have hks : scan_ks (1 / 1000) 200 200 = 0.003 := by
      unfold scan_ks grid_lo grid_hi
      rw [max_eq_left (by norm_num : (1 / 1000 : ℝ) * 0.2 ≤ 0.01)]
      norm_num
    rw [hks, if_neg (by norm_num : ¬ (0.003 : ℝ) = 0)] at hfind
    have hround : py_round2 (0.003 : ℝ) = 0 := by
      have hfl : ⌊(0.003 : ℝ) * 100⌋ = 0 := by
        apply Int.floor_eq_zero_iff.mpr
        constructor <;> norm_num
      simp only [py_round2, hfl]
      norm_num
    rw [hround] at hfind
    simp only [opposite] at hfind
    simp only [analyze_balancer_core,
      if_neg (show ¬ (1 / 1000 : ℝ) ≤ 0 by norm_num), hld, opposite, hfind]
    norm_num
